import Mathlib

/-!
Verification of amilzbot/swig-agents.

Shallow embedding of the repository's code and of its specification:
  * the permission-string parser `parsePermission`, the treasury-id
    encoding of `createWallet`, and `getWalletInfo`, all from
    src/scripts/swig-client.ts;
  * the authorization / budget engine (delegation validator, budget
    ledger, root protection), which lives in the external Swig program
    and is therefore modelled from the specification.
-/

namespace SwigAgents

/-! ## Permission strings (src/scripts/swig-client.ts, parsePermission) -/

/-- The `Action` record of swig-client.ts: a type tag plus optional
kind-specific parameters.  `type` is a plain string because the source
casts `parts[0] as ActionType` without any check.  `window := none`
models both an absent field and a JS `NaN` stored by `parseInt`. -/
structure Action where
  type : String
  amount : Option Int := none
  window : Option Int := none
  programId : Option String := none
  destination : Option String := none
deriving DecidableEq, Repr

/-- JS `String.prototype.split(sep)` on a single-character separator:
`"a:b".split(":") = ["a","b"]`, `"".split(":") = [""]`. -/
def splitOnChar (sep : Char) (xs : List Char) : List (List Char) :=
  xs.foldr (fun c acc =>
    if c = sep then [] :: acc else (c :: acc.headD []) :: acc.tail) [[]]

/-- `permission.split(':')` from parsePermission. -/
def parseParts (s : String) : List String :=
  (splitOnChar ':' s.toList).map String.mk

/-- The kind field of a permission string: the text before the first
colon (`parts[0]` in the source). -/
def kindOf (s : String) : String :=
  (parseParts s).getD 0 ""

/-- `parts[i] || dflt` from the source: `""` models both JS `undefined`
(index out of range) and the empty string, which are equally falsy. -/
def partOr (parts : List String) (i : Nat) (dflt : String) : String :=
  if parts.getD i "" = "" then dflt else parts.getD i ""

/-- Value of a (non-empty) digit string read in base 10. -/
def digitsVal (s : List Char) : Nat :=
  s.foldl (fun n c => n * 10 + (c.toNat - 48)) 0

def allDigits (s : List Char) : Bool :=
  s.all (·.isDigit)

/-- Models `BigInt(Math.floor(parseFloat(x) * 1e9))` from the source,
with exact rational arithmetic, on decimal numerals `digits[.digits]`.
`none` models `NaN`, on which `BigInt` throws.  (JS would additionally
accept sign/exponent forms and leading numeric text, and double
rounding can differ by one lamport on some fractional inputs; none of
the theorems below evaluate at such inputs.) -/
def parseAmount (s : String) : Option Int :=
  match splitOnChar '.' s.toList with
  | [ip] =>
      if ip ≠ [] ∧ allDigits ip then some ((digitsVal ip : Int) * 1000000000)
      else none
  | [ip, fp] =>
      if (ip ≠ [] ∨ fp ≠ []) ∧ allDigits ip ∧ allDigits fp then
        some ((digitsVal ip : Int) * 1000000000
          + (digitsVal ((fp ++ List.replicate 9 '0').take 9) : Int))
      else none
  | _ => none

/-- Models JS `parseInt` on the decimal numerals the scripts pass;
`none` models `NaN`.  (JS would also parse leading digits of mixed text.) -/
def parseIntJS (s : String) : Option Int :=
  if s.toList ≠ [] ∧ allDigits s.toList then some ((digitsVal s.toList : Int))
  else none

def isBase58Char (c : Char) : Bool :=
  c.isAlphanum && !(c == '0') && !(c == 'I') && !(c == 'O') && !(c == 'l')

/-- Models `address(s)` from @solana/kit: validates that the text is a
syntactically valid base58 32-byte key (32 to 44 base58 characters), throwing on
invalid input (`none`). -/
def addressOf (s : String) : Option String :=
  if 32 ≤ s.length ∧ s.length ≤ 44 ∧ s.toList.all isBase58Char = true then some s
  else none

/-- The closed set of `ActionType` strings of swig-client.ts (the §4.1
action kinds as the source spells them). -/
def actionTypeStrings : List String :=
  ["All", "AllButManageAuthority", "ManageAuthority",
   "SolLimit", "SolRecurringLimit", "SolDestinationLimit",
   "SolRecurringDestinationLimit",
   "TokenLimit", "TokenRecurringLimit", "TokenDestinationLimit",
   "TokenRecurringDestinationLimit",
   "Program", "ProgramAll", "ProgramCurated", "ProgramScope",
   "SubAccount", "StakeLimit", "StakeRecurringLimit", "StakeAll"]

/-- The nine kinds for which parsePermission's switch extracts
parameters; every other kind falls through to `default: return {type}`. -/
def paramHandledKinds : List String :=
  ["SolLimit", "TokenLimit", "StakeLimit",
   "SolRecurringLimit", "TokenRecurringLimit", "StakeRecurringLimit",
   "SolDestinationLimit", "TokenDestinationLimit", "Program"]

/-- parsePermission from src/scripts/swig-client.ts.  `none` models a
thrown exception (`BigInt(NaN)` or `address` on invalid input); the
source otherwise returns an `Action` for every input string. -/
def parsePermission (permission : String) : Option Action :=
  if kindOf permission = "SolLimit" ∨ kindOf permission = "TokenLimit" ∨
      kindOf permission = "StakeLimit" then
    match parseAmount (partOr (parseParts permission) 1 "0") with
    | none => none
    | some a => some { type := kindOf permission, amount := some a }
  else if kindOf permission = "SolRecurringLimit" ∨
      kindOf permission = "TokenRecurringLimit" ∨
      kindOf permission = "StakeRecurringLimit" then
    match parseAmount (partOr (parseParts permission) 1 "0") with
    | none => none
    | some a =>
        some { type := kindOf permission, amount := some a,
               window := parseIntJS (partOr (parseParts permission) 2 "86400") }
  else if kindOf permission = "SolDestinationLimit" ∨
      kindOf permission = "TokenDestinationLimit" then
    match addressOf (partOr (parseParts permission) 1
        "11111111111111111111111111111111") with
    | none => none
    | some d =>
        match parseAmount (partOr (parseParts permission) 2 "0") with
        | none => none
        | some a =>
            some { type := kindOf permission, destination := some d,
                   amount := some a }
  else if kindOf permission = "Program" then
    match addressOf (partOr (parseParts permission) 1
        "11111111111111111111111111111111") with
    | none => none
    | some p => some { type := kindOf permission, programId := some p }
  else some { type := kindOf permission }

/-! ## Treasury id encoding (src/scripts/swig-client.ts, createWallet) -/

/-- The id encoding of createWallet on byte lists (single-byte
characters, the identifiers the scripts use):
`params.id.padEnd(32, '\0').slice(0, 32)` written into a zero-filled
`Uint8Array(32)`. -/
def encodeId (id : List Nat) : List Nat :=
  let padded := id ++ List.replicate (32 - id.length) 0
  let sliced := padded.take 32
  sliced ++ List.replicate (32 - sliced.length) 0

/-! ## Wallet info (src/scripts/swig-client.ts, getWalletInfo) -/

/-- Result record of getWalletInfo (`exists` in the source). -/
structure WalletInfo where
  accountExists : Bool
  roles : Nat
  lamports : Nat
deriving DecidableEq, Repr

/-- getWalletInfo from swig-client.ts: the account lookup is abstracted
as `Option`-of-lamports (`accountInfo.value`); the source returns
`roles: 0` unconditionally (the parse from account data is a stub). -/
def getWalletInfo (accountValue : Option Nat) : WalletInfo :=
  match accountValue with
  | none => ⟨false, 0, 0⟩
  | some lamports => ⟨true, 0, lamports⟩

/-! ## Authorization / budget engine

Modelled from the spec: the delegation validator (§4.3), budget ledger
(§4.4), role store (§4.2) and authorization engine (§4.5) live in the
external Swig program, not under src/; the definitions below follow the
specification's words.  Identifiers (program ids, destinations, mints,
authorities) are abstract and compared only for equality, so they are
modelled as `Nat`. -/

/-- Modelled from the spec: the §7 error taxonomy. -/
inductive Reason where
  | notFound
  | duplicateId
  | idOutOfRange
  | rootConflict
  | cannotRemoveRoot
  | cannotModifyRoot
  | insufficientPrivilege
  | privilegeEscalation
  | permissionDenied
  | wrongDestination
  | limitExceeded
  | clockRegression
deriving DecidableEq, Repr

/-- Modelled from the spec: the closed set of §4.1 action kinds with
their parameters. -/
inductive ActionKind where
  | universal
  | manageRoles
  | allExceptManageRoles
  | programAny
  | programOne (programId : Nat)
  | programCurated
  | programScoped (programId isolatedBalance : Nat)
  | currencyOnce (amount : Nat)
  | currencyRecurring (amount window : Nat)
  | currencyToDestination (destination amount : Nat)
  | currencyRecurringToDestination (destination amount window : Nat)
  | tokenOnce (mint amount : Nat)
  | tokenRecurring (mint amount window : Nat)
  | tokenToDestination (mint destination amount : Nat)
  | tokenRecurringToDestination (mint destination amount window : Nat)
  | stakeOnce (amount : Nat)
  | stakeRecurring (amount window : Nat)
  | stakeAll
  | subAccount
deriving DecidableEq, Repr

/-- Management kinds: `Universal` and `ManageRoles` (§4.1). -/
def ActionKind.isManagement : ActionKind → Bool
  | .universal => true
  | .manageRoles => true
  | _ => false

/-- Modelled from the spec (§4.3): a role performing a management
request must itself hold `ManageRoles` or `Universal`. -/
def hasManageRoles (eff : List ActionKind) : Bool :=
  eff.any fun a => a.isManagement

/-- Modelled from the spec (§4.3): may a single held action cover the
grant of action `g`?  Checked kind-by-kind; `Universal` covers
everything, `AllExceptManageRoles` every non-management kind; for
parameterized kinds the granted amount must not exceed the holder's
limit for the same kind and parameters. -/
def coversGrant : ActionKind → ActionKind → Bool
  | .universal, _ => true
  | .allExceptManageRoles, g => !g.isManagement
  | .manageRoles, .manageRoles => true
  | .programAny, .programAny => true
  | .programAny, .programOne _ => true
  | .programAny, .programCurated => true
  | .programCurated, .programCurated => true
  | .programOne p, .programOne q => p = q
  | .programScoped p b, .programScoped q b' => p = q ∧ b' ≤ b
  | .currencyOnce a, .currencyOnce a' => a' ≤ a
  | .currencyRecurring a w, .currencyRecurring a' w' => a' ≤ a ∧ w' = w
  | .currencyToDestination d a, .currencyToDestination d' a' => d' = d ∧ a' ≤ a
  | .currencyRecurringToDestination d a w, .currencyRecurringToDestination d' a' w' =>
      d' = d ∧ a' ≤ a ∧ w' = w
  | .tokenOnce m a, .tokenOnce m' a' => m' = m ∧ a' ≤ a
  | .tokenRecurring m a w, .tokenRecurring m' a' w' => m' = m ∧ a' ≤ a ∧ w' = w
  | .tokenToDestination m d a, .tokenToDestination m' d' a' => m' = m ∧ d' = d ∧ a' ≤ a
  | .tokenRecurringToDestination m d a w, .tokenRecurringToDestination m' d' a' w' =>
      m' = m ∧ d' = d ∧ a' ≤ a ∧ w' = w
  | .stakeAll, .stakeAll => true
  | .stakeAll, .stakeOnce _ => true
  | .stakeAll, .stakeRecurring _ _ => true
  | .stakeOnce a, .stakeOnce a' => a' ≤ a
  | .stakeRecurring a w, .stakeRecurring a' w' => a' ≤ a ∧ w' = w
  | .subAccount, .subAccount => true
  | _, _ => false

/-- A single grantable action: covered by some held action. -/
def grantable (eff : List ActionKind) (g : ActionKind) : Bool :=
  eff.any (coversGrant · g)

/-- The granted set is a subset of the holder's effective actions. -/
def subsetOf (eff grant : List ActionKind) : Bool :=
  grant.all (grantable eff)

/-- Modelled from the spec (§4.3): the delegation validator for
`AddRole` / `AddAction`.  `none` means approved.  Root (actor id 0) is
exempt from every check; a non-root actor may not touch role 0, must
hold `ManageRoles`, and may only grant a subset of its own effective
actions. -/
def validateManage (actorId : Nat) (eff : List ActionKind) (targetId : Nat)
    (grant : List ActionKind) : Option Reason :=
  if targetId = 0 ∧ actorId ≠ 0 then some .cannotModifyRoot
  else if actorId ≠ 0 ∧ hasManageRoles eff = false then some .insufficientPrivilege
  else if actorId ≠ 0 ∧ subsetOf eff grant = false then some .privilegeEscalation
  else none

/-! ### Budget ledger (§4.4) -/

/-- Modelled from the spec: one `BudgetEntry`, tracking consumption for
one consumable action instance.  `destination` is set for
destination-scoped kinds.  For one-time kinds `recurring = false` and
the window never resets. -/
structure BudgetEntry where
  limit : Nat
  recurring : Bool
  window : Nat
  consumed : Nat
  windowStart : Nat
  destination : Option Nat
deriving DecidableEq, Repr

inductive ConsumeResult where
  | ok
  | rejected (r : Reason)
deriving DecidableEq, Repr

/-- The window-rollover step of §4.4: if the action is recurring and
`now − window_start ≥ windowLength`, reset `consumed` to 0 and
`window_start` to `now` before checking. -/
def applyReset (e : BudgetEntry) (now : Nat) : BudgetEntry :=
  if e.recurring = true ∧ e.window ≤ now - e.windowStart then
    { e with consumed := 0, windowStart := now }
  else e

/-- Modelled from the spec (§4.4): `checkAndConsume`.  Roll an elapsed
window over, check the destination, then check the limit; every
rejection leaves the stored entry byte-for-byte unchanged (§7), and on
success `consumed` grows by `amount` atomically. -/
def checkAndConsume (e : BudgetEntry) (reqDest : Option Nat) (amount now : Nat) :
    ConsumeResult × BudgetEntry :=
  let e' := applyReset e now
  if e.destination ≠ none ∧ reqDest ≠ e.destination then
    (.rejected .wrongDestination, e)
  else if e.limit < e'.consumed + amount then
    (.rejected .limitExceeded, e)
  else
    (.ok, { e' with consumed := e'.consumed + amount })

/-- The stored entry after each call of a `checkAndConsume` sequence
(`(amount, now)` pairs). -/
def consumeSeq (e : BudgetEntry) : List (Nat × Nat) → List BudgetEntry
  | [] => []
  | c :: rest =>
      (checkAndConsume e none c.1 c.2).2 ::
        consumeSeq (checkAndConsume e none c.1 c.2).2 rest

/-- Non-decreasing timestamps of a call sequence. -/
def timesSorted : List (Nat × Nat) → Bool
  | [] => true
  | [_] => true
  | p :: q :: rest => (decide (p.2 ≤ q.2)) && timesSorted (q :: rest)

/-! ### Role store (§4.2) and engine requests (§4.5) -/

/-- Modelled from the spec: a role, with an abstract authority descriptor
(equality only) and its granted actions. -/
structure Role where
  authority : Nat
  actions : List ActionKind
deriving DecidableEq, Repr

/-- Modelled from the spec: the treasury aggregate — role-id → Role
mapping, the budget entries keyed by owning role id, and the version
counter bumped on every mutation. -/
structure Treasury where
  roles : List (Nat × Role)
  entries : List (Nat × BudgetEntry)
  version : Nat
deriving DecidableEq, Repr

def lookupRole (t : Treasury) (id : Nat) : Option Role :=
  (t.roles.find? (·.1 = id)).map (·.2)

/-- Modelled from the spec (§4.2): `remove(roleId)` — rejects with
`CannotRemoveRoot` for role 0 (whoever acts, root included); on success
cascades removal of the role's budget entries and bumps the version. -/
def removeRole (t : Treasury) (actorId targetId : Nat) : Option Reason × Treasury :=
  if targetId = 0 then (some .cannotRemoveRoot, t)
  else if actorId ≠ 0 ∧ hasManageRoles (((lookupRole t actorId).map
      (·.actions)).getD []) = false then
    (some .insufficientPrivilege, t)
  else if lookupRole t targetId = none then (some .notFound, t)
  else
    (none, { roles := t.roles.filter (·.1 ≠ targetId),
             entries := t.entries.filter (·.1 ≠ targetId),
             version := t.version + 1 })

/-- Modelled from the spec (§4.5, §4.3): an `AddAction` request —
confirm the acting role exists, delegate to the validator, then mutate
the target role and bump the version. -/
def addAction (t : Treasury) (actorId targetId : Nat) (grant : List ActionKind) :
    Option Reason × Treasury :=
  match lookupRole t actorId with
  | none => (some .notFound, t)
  | some actor =>
    match validateManage actorId actor.actions targetId grant with
    | some r => (some r, t)
    | none =>
      match lookupRole t targetId with
      | none => (some .notFound, t)
      | some _ =>
          (none, { t with
            roles := t.roles.map fun p =>
              if p.1 = targetId then (p.1, { p.2 with actions := p.2.actions ++ grant })
              else p,
            version := t.version + 1 })

/-- Modelled from the spec (§4.5): does one held action cover invoking
the program `programId`?  `ProgramCurated` reads the external curated
allow-list. -/
def coversInvoke (curated : List Nat) (a : ActionKind) (programId : Nat) : Bool :=
  match a with
  | .universal => true
  | .allExceptManageRoles => true
  | .programAny => true
  | .programOne p => p = programId
  | .programCurated => programId ∈ curated
  | .programScoped p _ => p = programId
  | _ => false

/-- Modelled from the spec (§4.5): the permission step for a program
invocation — a request for a kind the role does not hold rejects with
`PermissionDenied` before any ledger lookup; a covered non-consumable
invocation needs no ledger step. -/
def authorizeInvoke (eff : List ActionKind) (curated : List Nat)
    (programId : Nat) : Option Reason :=
  if eff.any (fun a => coversInvoke curated a programId) then none
  else some .permissionDenied

/-! ## Helper lemmas -/

/-- Every kind string outside the nine parameter-extracting cases hits
the switch's `default` branch and parses to a bare type tag. -/
theorem parsePermission_default (s : String) (h : kindOf s ∉ paramHandledKinds) :
    parsePermission s = some { type := kindOf s } := by
  have h1 : ¬(kindOf s = "SolLimit" ∨ kindOf s = "TokenLimit" ∨
      kindOf s = "StakeLimit") := by
    rintro (he | he | he) <;> exact h (by rw [he]; decide)
  have h2 : ¬(kindOf s = "SolRecurringLimit" ∨ kindOf s = "TokenRecurringLimit" ∨
      kindOf s = "StakeRecurringLimit") := by
    rintro (he | he | he) <;> exact h (by rw [he]; decide)
  have h3 : ¬(kindOf s = "SolDestinationLimit" ∨
      kindOf s = "TokenDestinationLimit") := by
    rintro (he | he) <;> exact h (by rw [he]; decide)
  have h4 : ¬(kindOf s = "Program") := fun he => h (by rw [he]; decide)
  unfold parsePermission
  rw [if_neg h1, if_neg h2, if_neg h3, if_neg h4]

/-- The rollover step never touches the limit. -/
theorem applyReset_limit (e : BudgetEntry) (now : Nat) :
    (applyReset e now).limit = e.limit := by
  unfold applyReset
  split <;> rfl

/-- The rollover step keeps consumption within the limit. -/
theorem applyReset_consumed (e : BudgetEntry) (now : Nat)
    (h : e.consumed ≤ e.limit) : (applyReset e now).consumed ≤ e.limit := by
  unfold applyReset
  split
  · exact Nat.zero_le _
  · exact h

/-- One `checkAndConsume` call preserves `consumed ≤ limit`. -/
theorem checkAndConsume_inv (e : BudgetEntry) (d : Option Nat) (a t : Nat)
    (h : e.consumed ≤ e.limit) :
    ((checkAndConsume e d a t).2).consumed ≤ ((checkAndConsume e d a t).2).limit := by
  unfold checkAndConsume
  by_cases hdest : e.destination ≠ none ∧ d ≠ e.destination
  · rw [if_pos hdest]
    exact h
  · rw [if_neg hdest]
    by_cases hlim : e.limit < (applyReset e t).consumed + a
    · rw [if_pos hlim]
      exact h
    · rw [if_neg hlim]
      show (applyReset e t).consumed + a ≤ (applyReset e t).limit
      rw [applyReset_limit]
      omega

/-! ## Claims -/

/-- C1: for every role except root, an AddRole/AddAction request is
approved by the delegation validator only if the granted set is a
subset of the acting role's effective actions, and a request granting
outside that set (once past the ManageRoles and root-target checks) is
rejected with PrivilegeEscalation. -/
theorem c1_grant_subset (actorId : Nat) (eff : List ActionKind) (targetId : Nat)
    (grant : List ActionKind) (hActor : actorId ≠ 0) (hTarget : targetId ≠ 0) :
    (validateManage actorId eff targetId grant = none → subsetOf eff grant = true) ∧
    (hasManageRoles eff = true → subsetOf eff grant = false →
      validateManage actorId eff targetId grant = some .privilegeEscalation) := by
  unfold validateManage
  have h1 : ¬(targetId = 0 ∧ actorId ≠ 0) := fun hc => hTarget hc.1
  rw [if_neg h1]
  constructor
  · intro hnone
    by_cases hm : hasManageRoles eff = false
    · rw [if_pos ⟨hActor, hm⟩] at hnone
      exact absurd hnone (by simp)
    · rw [if_neg (fun hc => hm hc.2)] at hnone
      by_cases hs : subsetOf eff grant = false
      · rw [if_pos ⟨hActor, hs⟩] at hnone
        exact absurd hnone (by simp)
      · cases hb : subsetOf eff grant
        · exact absurd hb hs
        · rfl
  · intro hm hs
    rw [if_neg (fun hc => by rw [hm] at hc; exact absurd hc.2 (by simp)),
      if_pos ⟨hActor, hs⟩]

/-- Witness for C1: a manager holding ManageRoles plus
CurrencyRecurring(10, 86400) attempting to grant
CurrencyRecurring(20, 86400) is rejected with PrivilegeEscalation. -/
theorem c1_grant_subset_witness :
    validateManage 1 [.manageRoles, .currencyRecurring 10 86400] 2
      [.currencyRecurring 20 86400] = some .privilegeEscalation :=
  (c1_grant_subset 1 [.manageRoles, .currencyRecurring 10 86400] 2
    [.currencyRecurring 20 86400] (by decide) (by decide)).2 (by decide) (by decide)

/-- C2: a checkAndConsume call rejects with LimitExceeded and leaves
the entry unchanged when the (post-rollover) consumption plus the
requested amount exceeds the limit, and otherwise succeeds adding the
amount; the CurrencyRecurring(100, 86400) scenario consumes 60 at t=0,
rejects 60 at t=100 leaving consumed=60, and consumes 60 again at
t=86401 after the window reset. -/
theorem c2_check_and_consume (e : BudgetEntry) (amount now : Nat)
    (hd : e.destination = none) :
    (e.limit < (applyReset e now).consumed + amount →
      checkAndConsume e none amount now = (.rejected .limitExceeded, e)) ∧
    ((applyReset e now).consumed + amount ≤ e.limit →
      checkAndConsume e none amount now =
        (.ok, { applyReset e now with
                consumed := (applyReset e now).consumed + amount })) ∧
    (consumeSeq ⟨100, true, 86400, 0, 0, none⟩ [(60, 0), (60, 100), (60, 86401)] =
      [⟨100, true, 86400, 60, 0, none⟩, ⟨100, true, 86400, 60, 0, none⟩,
       ⟨100, true, 86400, 60, 86401, none⟩]) ∧
    (checkAndConsume ⟨100, true, 86400, 0, 0, none⟩ none 60 0).1 = .ok ∧
    (checkAndConsume ⟨100, true, 86400, 60, 0, none⟩ none 60 100).1 =
      .rejected .limitExceeded ∧
    (checkAndConsume ⟨100, true, 86400, 60, 0, none⟩ none 60 86401).1 = .ok := by
  have hdest : ¬(e.destination ≠ none ∧ (none : Option Nat) ≠ e.destination) := by
    rw [hd]; simp
  refine ⟨?_, ?_, by decide, by decide, by decide, by decide⟩
  · intro hlim
    unfold checkAndConsume
    rw [if_neg hdest, if_pos hlim]
  · intro hle
    unfold checkAndConsume
    rw [if_neg hdest, if_neg (by omega)]

/-- Witness for C2: the rejected middle call of the scenario, applied
through the general statement. -/
theorem c2_check_and_consume_witness :
    checkAndConsume ⟨100, true, 86400, 60, 0, none⟩ none 60 100 =
      (.rejected .limitExceeded, ⟨100, true, 86400, 60, 0, none⟩) :=
  (c2_check_and_consume ⟨100, true, 86400, 60, 0, none⟩ 60 100 rfl).1 (by decide)

/-- C3: over any sequence of checkAndConsume calls with non-decreasing
timestamps on one entry, `consumed ≤ limit` holds after every call; and
a stored window reset happens at most once per elapsed window boundary:
whenever a call changes `windowStart`, it moves it to the call's `now`
and only after a full window length elapsed since the previous value. -/
theorem c3_budget_invariant (e : BudgetEntry) (calls : List (Nat × Nat))
    (hInv : e.consumed ≤ e.limit) (_hMono : timesSorted calls = true) :
    (∀ x ∈ consumeSeq e calls, x.consumed ≤ x.limit) ∧
    (∀ (e₁ : BudgetEntry) (a t : Nat),
      (checkAndConsume e₁ none a t).2.windowStart ≠ e₁.windowStart →
        (checkAndConsume e₁ none a t).2.windowStart = t ∧
        e₁.window ≤ t - e₁.windowStart) := by
  constructor
  · clear _hMono
    induction calls generalizing e with
    | nil => intro x hx; cases hx
    | cons c rest ih =>
      intro x hx
      rw [consumeSeq] at hx
      rcases List.mem_cons.mp hx with hx | hx
      · rw [hx]
        exact checkAndConsume_inv e none c.1 c.2 hInv
      · exact ih _ (checkAndConsume_inv e none c.1 c.2 hInv) x hx
  · intro e₁ a t hne
    unfold checkAndConsume at hne
    by_cases hdest : e₁.destination ≠ none ∧ (none : Option Nat) ≠ e₁.destination
    · rw [if_pos hdest] at hne
      exact absurd rfl hne
    · rw [if_neg hdest] at hne
      by_cases hlim : e₁.limit < (applyReset e₁ t).consumed + a
      · rw [if_pos hlim] at hne
        exact absurd rfl hne
      · rw [if_neg hlim] at hne
        unfold checkAndConsume
        rw [if_neg hdest, if_neg hlim]
        unfold applyReset at hne ⊢
        by_cases hr : e₁.recurring = true ∧ e₁.window ≤ t - e₁.windowStart
        · rw [if_pos hr] at hne ⊢
          exact ⟨rfl, hr.2⟩
        · rw [if_neg hr] at hne
          exact absurd rfl hne

/-- Witness for C3: after the first call of the concrete scenario the
stored entry still satisfies consumed ≤ limit. -/
theorem c3_budget_invariant_witness :
    (⟨100, true, 86400, 60, 0, none⟩ : BudgetEntry).consumed ≤
      (⟨100, true, 86400, 60, 0, none⟩ : BudgetEntry).limit :=
  (c3_budget_invariant ⟨100, true, 86400, 0, 0, none⟩
    [(60, 0), (60, 100), (60, 86401)] (by decide) (by decide)).1
    ⟨100, true, 86400, 60, 0, none⟩ (by decide)

/-- C4: removing role 0 is rejected with CannotRemoveRoot whoever the
actor is (root removing itself included), and a non-root role mutating
role 0 is rejected with CannotModifyRoot; both leave the treasury
unchanged. -/
theorem c4_root_protection (t : Treasury) (actorId : Nat) (r : Role)
    (grant : List ActionKind) (hActor : actorId ≠ 0)
    (hRole : lookupRole t actorId = some r) :
    (∀ aid : Nat, removeRole t aid 0 = (some .cannotRemoveRoot, t)) ∧
    addAction t actorId 0 grant = (some .cannotModifyRoot, t) := by
  constructor
  · intro aid
    unfold removeRole
    rw [if_pos rfl]
  · have hv : validateManage actorId r.actions 0 grant = some .cannotModifyRoot := by
      unfold validateManage
      rw [if_pos ⟨rfl, hActor⟩]
    unfold addAction
    simp only [hRole, hv]

/-- Witness for C4: in a two-role treasury, the manager role 1 adding an
action to role 0 is rejected with CannotModifyRoot and the treasury is
unchanged. -/
theorem c4_root_protection_witness :
    addAction ⟨[(0, ⟨0, [.universal]⟩), (1, ⟨5, [.manageRoles]⟩)], [], 0⟩ 1 0 [] =
      (some .cannotModifyRoot,
        ⟨[(0, ⟨0, [.universal]⟩), (1, ⟨5, [.manageRoles]⟩)], [], 0⟩) :=
  (c4_root_protection ⟨[(0, ⟨0, [.universal]⟩), (1, ⟨5, [.manageRoles]⟩)], [], 0⟩
    1 ⟨5, [.manageRoles]⟩ [] (by decide) (by decide)).2

/-- C5 counterexample: parsePermission produces an Action for the kind
string "Bogus", which is outside the closed §4.1 / ActionType set — the
switch's default branch performs no validation, refuting the claim that
strings with an unrecognized kind field are rejected. -/
theorem c5_counterexample :
    parsePermission "Bogus" = some ⟨"Bogus", none, none, none, none⟩ ∧
    ("Bogus" ∈ actionTypeStrings) = False := by
  constructor
  · decide
  · simp only [eq_iff_iff, iff_false]
    decide

/-- C5 (amended): parsePermission performs no validation of the kind
field: every string whose kind is not one of the nine
parameter-extracting cases — in particular every kind outside the
closed §4.1 set — parses to a bare Action carrying that kind tag, and
no input is rejected for an unrecognized kind. -/
theorem c5_parse_no_validation (s : String) (h : kindOf s ∉ actionTypeStrings) :
    parsePermission s = some { type := kindOf s } := by
  have hsub : ∀ x ∈ paramHandledKinds, x ∈ actionTypeStrings := by decide
  exact parsePermission_default s fun hm => h (hsub _ hm)

/-- Witness for C5 (amended): the unrecognized kind "Bogus" parses to a
bare Action instead of being rejected. -/
theorem c5_parse_no_validation_witness :
    parsePermission "Bogus" = some { type := kindOf "Bogus" } :=
  c5_parse_no_validation "Bogus" (by decide)

/-- C6 counterexample: a SolRecurringDestinationLimit permission string
with destination, amount and window fields parses to a bare kind tag
with every parameter dropped (the switch has no case for it), refuting
the claim that every parameterized kind keeps its parameters. -/
theorem c6_counterexample :
    parsePermission
        "SolRecurringDestinationLimit:11111111111111111111111111111111:5:3600" =
      some ⟨"SolRecurringDestinationLimit", none, none, none, none⟩ := by
  decide

/-- C6 (amended): parsePermission extracts parameters only for the nine
kinds SolLimit, TokenLimit, StakeLimit, SolRecurringLimit,
TokenRecurringLimit, StakeRecurringLimit, SolDestinationLimit,
TokenDestinationLimit and Program; the remaining parameterized kinds —
SolRecurringDestinationLimit, TokenRecurringDestinationLimit and
ProgramScope — parse to a bare kind tag with their parameters dropped
(the Action record cannot even carry ProgramScope's isolated balance),
while a handled kind such as SolRecurringLimit does keep its amount and
window. -/
theorem c6_params_dropped (s : String)
    (h : kindOf s = "SolRecurringDestinationLimit" ∨
      kindOf s = "TokenRecurringDestinationLimit" ∨ kindOf s = "ProgramScope") :
    parsePermission s = some { type := kindOf s } ∧
    parsePermission "SolRecurringLimit:5:3600" =
      some { type := "SolRecurringLimit", amount := some 5000000000,
             window := some 3600 } := by
  refine ⟨parsePermission_default s ?_, by decide⟩
  rcases h with he | he | he <;> rw [he] <;> decide

/-- Witness for C6 (amended): a ProgramScope permission with program id
and balance parses to the bare kind tag. -/
theorem c6_params_dropped_witness :
    parsePermission "ProgramScope:11111111111111111111111111111111:5" =
      some { type := kindOf "ProgramScope:11111111111111111111111111111111:5" } :=
  (c6_params_dropped "ProgramScope:11111111111111111111111111111111:5"
    (by decide)).1

/-- C7 counterexample: createWallet accepts a 40-byte identifier — the
encoding silently truncates it to its first 32 bytes instead of
rejecting it, refuting the claim that identifiers longer than 32 bytes
are not accepted (and the encoding is not the original bytes plus
padding). -/
theorem c7_counterexample :
    encodeId (List.replicate 40 97) = List.replicate 32 97 ∧
    encodeId (List.replicate 40 97) ≠
      List.replicate 40 97 ++
        List.replicate (32 - (List.replicate 40 97 : List Nat).length) 0 := by
  constructor
  · decide
  · decide

/-- C7 (amended): the encoded identifier is always exactly 32 bytes;
identifiers of at most 32 bytes are kept on the left and right-padded
with the zero fill byte, while identifiers longer than 32 bytes are not
rejected but silently truncated to their first 32 bytes. -/
theorem c7_encode_id (id : List Nat) :
    (encodeId id).length = 32 ∧
    (id.length ≤ 32 → encodeId id = id ++ List.replicate (32 - id.length) 0) ∧
    (32 < id.length → encodeId id = id.take 32) := by
  simp only [encodeId]
  by_cases h : id.length ≤ 32
  · have hp : (id ++ List.replicate (32 - id.length) 0).length = 32 := by
      rw [List.length_append, List.length_replicate]
      omega
    have ht : (id ++ List.replicate (32 - id.length) 0).take 32 =
        id ++ List.replicate (32 - id.length) 0 :=
      List.take_of_length_le (by omega)
    rw [ht, hp]
    refine ⟨?_, fun _ => ?_, fun hc => absurd hc (by omega)⟩
    · rw [Nat.sub_self, List.replicate_zero, List.append_nil, hp]
    · rw [Nat.sub_self, List.replicate_zero, List.append_nil]
  · have h0 : 32 - id.length = 0 := by omega
    have hl : (id.take 32).length = 32 := by
      rw [List.length_take]
      omega
    rw [h0, List.replicate_zero, List.append_nil, hl]
    refine ⟨?_, fun hc => absurd hc h, fun _ => ?_⟩
    · rw [Nat.sub_self, List.replicate_zero, List.append_nil, hl]
    · rw [Nat.sub_self, List.replicate_zero, List.append_nil]

/-- Witness for C7 (amended): the two-byte identifier "hi" is encoded
as its bytes followed by thirty zero fill bytes. -/
theorem c7_encode_id_witness :
    encodeId [104, 105] =
      [104, 105] ++ List.replicate (32 - ([104, 105] : List Nat).length) 0 :=
  (c7_encode_id [104, 105]).2.1 (by decide)

/-- C8 counterexample: a zero-amount probe on a recurring entry whose
window has elapsed returns Ok but does change the budget entry — the
elapsed window is rolled over (consumed reset to 0, windowStart moved),
refuting the claim that the entry is always unchanged. -/
theorem c8_counterexample :
    (checkAndConsume ⟨100, true, 10, 60, 0, none⟩ none 0 100).1 = .ok ∧
    (checkAndConsume ⟨100, true, 10, 60, 0, none⟩ none 0 100).2 ≠
      ⟨100, true, 10, 60, 0, none⟩ := by
  constructor
  · decide
  · decide

/-- C8 (amended): a zero-amount request on a held consumable entry
always returns Ok and consumes nothing: the entry is unchanged whenever
no window boundary has elapsed, and otherwise only the ordinary window
rollover is applied (consumed reset to 0, windowStart to now); a role
holding only ProgramOne(P) gets Ok for invoking P and
Rejected(PermissionDenied) for any other program Q. -/
theorem c8_zero_amount_probe (e : BudgetEntry) (now : Nat)
    (hInv : e.consumed ≤ e.limit) (hd : e.destination = none) :
    (checkAndConsume e none 0 now).1 = .ok ∧
    (¬(e.recurring = true ∧ e.window ≤ now - e.windowStart) →
      (checkAndConsume e none 0 now).2 = e) ∧
    ((e.recurring = true ∧ e.window ≤ now - e.windowStart) →
      (checkAndConsume e none 0 now).2 =
        { e with consumed := 0, windowStart := now }) ∧
    (∀ P Q : Nat, P ≠ Q →
      authorizeInvoke [.programOne P] [] Q = some .permissionDenied) ∧
    (∀ P : Nat, authorizeInvoke [.programOne P] [] P = none) := by
  have hdest : ¬(e.destination ≠ none ∧ (none : Option Nat) ≠ e.destination) := by
    rw [hd]; simp
  have hcons : (applyReset e now).consumed ≤ e.limit := applyReset_consumed e now hInv
  have hok : checkAndConsume e none 0 now =
      (.ok, { applyReset e now with consumed := (applyReset e now).consumed + 0 }) := by
    unfold checkAndConsume
    rw [if_neg hdest, if_neg (by omega)]
  refine ⟨by rw [hok], fun hr => ?_, fun hr => ?_, fun P Q hne => ?_, fun P => ?_⟩
  · rw [hok]
    unfold applyReset
    rw [if_neg hr]
    simp
  · rw [hok]
    unfold applyReset
    rw [if_pos hr]
  · unfold authorizeInvoke
    rw [if_neg]
    simp only [List.any_cons, List.any_nil, Bool.or_false, coversInvoke]
    simp [hne]
  · unfold authorizeInvoke
    rw [if_pos]
    simp [coversInvoke]

/-- Witness for C8 (amended): a zero-amount probe inside an open window
returns Ok. -/
theorem c8_zero_amount_probe_witness :
    (checkAndConsume ⟨100, true, 86400, 60, 0, none⟩ none 0 100).1 = .ok :=
  (c8_zero_amount_probe ⟨100, true, 86400, 60, 0, none⟩ 100 (by decide) rfl).1

/-- C9: getWalletInfo answers a missing account with
accountExists=false, roles=0, lamports=0 and no error, and for an
existing account it reports roles=0 unconditionally (the role count is
never derived from the account data). -/
theorem c9_get_wallet_info :
    getWalletInfo none = ⟨false, 0, 0⟩ ∧
    (∀ l : Nat, getWalletInfo (some l) = ⟨true, 0, l⟩) ∧
    (∀ v : Option Nat, (getWalletInfo v).roles = 0) := by
  refine ⟨rfl, fun l => rfl, fun v => ?_⟩
  cases v <;> rfl

/-- C10: parsePermission never fails on omitted parameter fields — each
recognized kind substitutes its defaults: amount 0, recurring window
86400, destination and program id the address of thirty-two ones. -/
theorem c10_parse_defaults :
    parsePermission "SolLimit" = some { type := "SolLimit", amount := some 0 } ∧
    parsePermission "TokenLimit" =
      some { type := "TokenLimit", amount := some 0 } ∧
    parsePermission "StakeLimit" =
      some { type := "StakeLimit", amount := some 0 } ∧
    parsePermission "SolRecurringLimit" =
      some { type := "SolRecurringLimit", amount := some 0,
             window := some 86400 } ∧
    parsePermission "TokenRecurringLimit" =
      some { type := "TokenRecurringLimit", amount := some 0,
             window := some 86400 } ∧
    parsePermission "StakeRecurringLimit" =
      some { type := "StakeRecurringLimit", amount := some 0,
             window := some 86400 } ∧
    parsePermission "SolRecurringLimit:5" =
      some { type := "SolRecurringLimit", amount := some 5000000000,
             window := some 86400 } ∧
    parsePermission "SolDestinationLimit" =
      some { type := "SolDestinationLimit", amount := some 0,
             destination := some "11111111111111111111111111111111" } ∧
    parsePermission "TokenDestinationLimit" =
      some { type := "TokenDestinationLimit", amount := some 0,
             destination := some "11111111111111111111111111111111" } ∧
    parsePermission "Program" =
      some { type := "Program",
             programId := some "11111111111111111111111111111111" } := by
  decide

end SwigAgents
